import Mathlib

/-!
Verification of the trade-completion core of the reuse-api marketplace:
the credits ledger (app/crud/reward.py), the reward stock manager, and the
exchange lifecycle endpoints (app/api/v1/endpoints/exchanges.py).

The Python source is shallowly embedded: database rows become Lean
structures, SQLAlchemy sessions become explicit state passing, a raised
exception becomes an Except error, and a commit point is the place where
the committed state is replaced by the working state.  Endpoints that can
raise after an inner commit (the completion path of confirm_exchange, whose
two add_credits_transaction calls each commit internally) return the
committed state reached at the point of the raise.
-/

namespace ReuseApi

/-- Wall-clock timestamps (datetime.utcnow / the database now()), as Nat. -/
abbrev Time := Nat

/-- offer_status enum from app/models/offer.py. -/
inductive OfferStatus where
  | active | reserved | completed | cancelled | flagged
deriving DecidableEq, Repr

/-- exchange_status enum from app/models/exchange.py. -/
inductive ExchangeStatus where
  | pending | accepted | in_progress | completed | cancelled | disputed
deriving DecidableEq, Repr

/-- exchange_event_type enum from app/models/exchange.py. -/
inductive EventType where
  | created | accepted | rejected | check_in_buyer | check_in_seller
  | completed | cancelled | disputed
deriving DecidableEq, Repr

/-- transaction_type enum from app/models/credits.py. -/
inductive TxType where
  | initial_grant | exchange_payment | exchange_received | reward_claim
  | admin_adjustment | refund
deriving DecidableEq, Repr

/-- claim_status enum from app/models/credits.py. -/
inductive ClaimStatus where
  | pending | approved | delivered | rejected
deriving DecidableEq, Repr

/-- A credits_ledger row (app/models/credits.py, CreditsLedger). -/
structure LedgerEntry where
  user_id : Nat
  transaction_type : TxType
  amount : Int
  balance_after : Int
  reference_id : Option Nat
  description : Option String
  created_at : Time
deriving DecidableEq, Repr

/-- An offers row, restricted to the fields this core reads or writes. -/
structure Offer where
  user_id : Nat
  status : OfferStatus
  credits_value : Int
  title : String
deriving DecidableEq, Repr

/-- An exchanges row (app/models/exchange.py, Exchange). -/
structure Exchange where
  offer_id : Nat
  buyer_id : Nat
  seller_id : Nat
  location_id : Option Nat
  status : ExchangeStatus
  credits_amount : Int
  buyer_confirmed : Bool
  seller_confirmed : Bool
  buyer_confirmed_at : Option Time
  seller_confirmed_at : Option Time
  scheduled_at : Option Time
  completed_at : Option Time
  cancellation_reason : Option String
deriving DecidableEq, Repr

/-- An exchange_events row (app/models/exchange.py, ExchangeEvent). -/
structure ExchangeEvent where
  exchange_id : Nat
  event_type : EventType
  by_user_id : Option Nat
  notes : Option String
deriving DecidableEq, Repr

/-- A rewards_catalog row (app/models/credits.py, RewardsCatalog). -/
structure Reward where
  name : String
  credits_cost : Int
  stock_quantity : Int
  is_active : Bool
deriving DecidableEq, Repr

/-- A reward_claims row (app/models/credits.py, RewardClaim). -/
structure RewardClaim where
  user_id : Nat
  reward_id : Nat
  credits_spent : Int
  status : ClaimStatus
  approved_at : Option Time
  delivered_at : Option Time
  notes : Option String
deriving DecidableEq, Repr

/-- A users row, restricted to the point counters the completion path bumps. -/
structure UserRec where
  sustainability_points : Int
  experience_points : Int
deriving DecidableEq, Repr

instance {e a : Type} [DecidableEq e] [DecidableEq a] : DecidableEq (Except e a) :=
  fun x y =>
    match x, y with
    | .error u, .error v =>
        if h : u = v then isTrue (congrArg Except.error h)
        else isFalse (fun hc => h (Except.error.inj hc))
    | .ok u, .ok v =>
        if h : u = v then isTrue (congrArg Except.ok h)
        else isFalse (fun hc => h (Except.ok.inj hc))
    | .error _, .ok _ => isFalse (fun hc => Except.noConfusion hc)
    | .ok _, .error _ => isFalse (fun hc => Except.noConfusion hc)

/-- First row matching a primary key, as db.query(...).filter(id == k).first(). -/
def lookupA {α : Type} : List (Nat × α) → Nat → Option α
  | [], _ => none
  | (k, v) :: rest, key => if k = key then some v else lookupA rest key

/-- In-place update of the first row with the given key (ORM object mutation). -/
def setA {α : Type} : List (Nat × α) → Nat → α → List (Nat × α)
  | [], _, _ => []
  | (k, v) :: rest, key, nv =>
      if k = key then (k, nv) :: rest else (k, v) :: setA rest key nv

/-- The visible database state.  Row lists are kept in insertion order
(oldest first); credits_ledger and exchange_events are append-only. -/
structure SysState where
  offers : List (Nat × Offer)
  exchanges : List (Nat × Exchange)
  events : List ExchangeEvent
  ledger : List LedgerEntry
  rewards : List (Nat × Reward)
  claims : List (Nat × RewardClaim)
  users : List (Nat × UserRec)
  next_claim_id : Nat
deriving DecidableEq, Repr

/-- The ledger rows belonging to one user (filter(CreditsLedger.user_id == uid)). -/
def userEntries (ledger : List LedgerEntry) (uid : Nat) : List LedgerEntry :=
  ledger.filter (fun e => e.user_id = uid)

/-- ORDER BY created_at DESC ... first(): the entry with the greatest
created_at.  On equal timestamps the earlier-inserted row is kept, matching
a stable descending sort of the insertion sequence. -/
def latestByCreatedAt : List LedgerEntry → Option LedgerEntry
  | [] => none
  | e :: es =>
      match latestByCreatedAt es with
      | none => some e
      | some a => if e.created_at < a.created_at then some a else some e

/-- get_user_balance (app/crud/reward.py lines 210-228): balance_after of the
entry of the user with the latest created_at, or 0 when the user has no entries. -/
def get_user_balance (ledger : List LedgerEntry) (uid : Nat) : Int :=
  match latestByCreatedAt (userEntries ledger uid) with
  | some e => e.balance_after
  | none => 0

/-- The ValueError raised by add_credits_transaction when the balance would
become negative (app/crud/reward.py line 282). -/
inductive CreditsError where
  | insufficientBalance
deriving DecidableEq, Repr

/-- add_credits_transaction (app/crud/reward.py lines 252-296): reads the
current balance, rejects a negative new balance, otherwise appends one entry
whose balance_after is the new balance and returns it.  The internal
db.commit() is handled at each call site. -/
def add_credits_transaction (s : SysState) (uid : Nat) (ttype : TxType)
    (amount : Int) (ref : Option Nat) (descr : Option String) (now : Time) :
    Except CreditsError (SysState × LedgerEntry) :=
  let current_balance := get_user_balance s.ledger uid
  let new_balance := current_balance + amount
  if new_balance < 0 then
    .error .insufficientBalance
  else
    let entry : LedgerEntry :=
      { user_id := uid, transaction_type := ttype, amount := amount,
        balance_after := new_balance, reference_id := ref,
        description := descr, created_at := now }
    .ok ({ s with ledger := s.ledger ++ [entry] }, entry)

/-- The ValueError messages of claim_reward (app/crud/reward.py lines 70-131). -/
inductive ClaimError where
  | rewardUnavailable | outOfStock | userNotFound | insufficientCredits
deriving DecidableEq, Repr

/-- claim_reward (app/crud/reward.py lines 70-131): checks the reward is
present and active, has stock, the user exists and has enough balance; then
creates a pending RewardClaim, decrements the stock by one and appends one
ledger debit.  The source sets the reference_id of the debit to None (line 124),
with a comment saying it would be updated with claim.id afterwards; no such
update exists, so the embedding keeps reference_id = none. -/
def claim_reward (s : SysState) (uid : Nat) (reward_id : Nat) (now : Time) :
    Except ClaimError (SysState × Nat × RewardClaim) :=
  match lookupA s.rewards reward_id with
  | none => .error .rewardUnavailable
  | some reward =>
    if !reward.is_active then .error .rewardUnavailable
    else if reward.stock_quantity ≤ 0 then .error .outOfStock
    else match lookupA s.users uid with
      | none => .error .userNotFound
      | some _ =>
        let balance := get_user_balance s.ledger uid
        if balance < reward.credits_cost then .error .insufficientCredits
        else
          let claim : RewardClaim :=
            { user_id := uid, reward_id := reward_id,
              credits_spent := reward.credits_cost, status := .pending,
              approved_at := none, delivered_at := none, notes := none }
          let entry : LedgerEntry :=
            { user_id := uid, transaction_type := .reward_claim,
              amount := -reward.credits_cost,
              balance_after := balance - reward.credits_cost,
              reference_id := none,
              description := some ("Reclamacion de recompensa: " ++ reward.name),
              created_at := now }
          .ok ({ s with
                  claims := s.claims ++ [(s.next_claim_id, claim)],
                  next_claim_id := s.next_claim_id + 1,
                  rewards := setA s.rewards reward_id
                    { reward with stock_quantity := reward.stock_quantity - 1 },
                  ledger := s.ledger ++ [entry] },
                s.next_claim_id, claim)

/-- update_claim_status (app/crud/reward.py lines 178-208): looks the claim
up, returns none when absent, otherwise sets the status unconditionally,
appends notes when truthy (non-None and non-empty), stamps approved_at on
status approved and delivered_at on status delivered, and returns the
updated claim.  No transition validation of any kind is performed. -/
def update_claim_status (s : SysState) (claim_id : Nat) (status : ClaimStatus)
    (notes : Option String) (now : Time) : Option (SysState × RewardClaim) :=
  match lookupA s.claims claim_id with
  | none => none
  | some claim =>
    let c1 : RewardClaim :=
      { claim with
          status := status,
          notes := (match notes with
                    | some n => if n = "" then claim.notes else some n
                    | none => claim.notes) }
    let c2 : RewardClaim :=
      if status = .approved then { c1 with approved_at := some now }
      else if status = .delivered then { c1 with delivered_at := some now }
      else c1
    some ({ s with claims := setA s.claims claim_id c2 }, c2)

/-- The HTTPExceptions raised by create_exchange
(app/api/v1/endpoints/exchanges.py lines 143-231). -/
inductive CreateError where
  | notFound | offerNotActive | ownOffer
deriving DecidableEq, Repr

/-- create_exchange (app/api/v1/endpoints/exchanges.py lines 143-231): the
offer must exist, be active and not belong to the buyer; then a fresh
Exchange in status pending is inserted under a freshly generated id, one
created event is appended, and the offer moves to reserved.  No check for an
already-existing Exchange of the same buyer and offer is made. -/
def create_exchange (s : SysState) (buyer : Nat) (offer_id : Nat)
    (location_id : Option Nat) (scheduled_at : Option Time)
    (notes : Option String) (new_id : Nat) :
    Except CreateError (SysState × Nat × Exchange) :=
  match lookupA s.offers offer_id with
  | none => .error .notFound
  | some offer =>
    if offer.status ≠ .active then .error .offerNotActive
    else if offer.user_id = buyer then .error .ownOffer
    else
      let ex : Exchange :=
        { offer_id := offer_id, buyer_id := buyer, seller_id := offer.user_id,
          location_id := location_id, status := .pending,
          credits_amount := offer.credits_value,
          buyer_confirmed := false, seller_confirmed := false,
          buyer_confirmed_at := none, seller_confirmed_at := none,
          scheduled_at := scheduled_at, completed_at := none,
          cancellation_reason := none }
      let ev : ExchangeEvent :=
        { exchange_id := new_id, event_type := .created,
          by_user_id := some buyer, notes := notes }
      .ok ({ s with
              exchanges := s.exchanges ++ [(new_id, ex)],
              events := s.events ++ [ev],
              offers := setA s.offers offer_id { offer with status := .reserved } },
            new_id, ex)

/-- The HTTPExceptions raised by accept_exchange
(app/api/v1/endpoints/exchanges.py lines 234-301). -/
inductive AcceptError where
  | notFound | forbidden | invalidState
deriving DecidableEq, Repr

/-- accept_exchange (app/api/v1/endpoints/exchanges.py lines 234-301): only
the seller may accept, only from status pending; moves the exchange to
accepted and appends one accepted event. -/
def accept_exchange (s : SysState) (actor : Nat) (exchange_id : Nat) :
    Except AcceptError SysState :=
  match lookupA s.exchanges exchange_id with
  | none => .error .notFound
  | some ex =>
    if ex.seller_id ≠ actor then .error .forbidden
    else if ex.status ≠ .pending then .error .invalidState
    else
      let ev : ExchangeEvent :=
        { exchange_id := exchange_id, event_type := .accepted,
          by_user_id := some actor, notes := none }
      .ok { s with
              exchanges := setA s.exchanges exchange_id { ex with status := .accepted },
              events := s.events ++ [ev] }

/-- The HTTPExceptions raised by cancel_exchange
(app/api/v1/endpoints/exchanges.py lines 461-539). -/
inductive CancelError where
  | notFound | forbidden | alreadyCompleted
deriving DecidableEq, Repr

/-- cancel_exchange (app/api/v1/endpoints/exchanges.py lines 461-539): any
participant may cancel any non-completed exchange; sets status cancelled and
the cancellation reason, appends one cancelled event and reverts the offer
to active when it exists.  No other exchange field is touched. -/
def cancel_exchange (s : SysState) (actor : Nat) (exchange_id : Nat)
    (reason : Option String) : Except CancelError SysState :=
  match lookupA s.exchanges exchange_id with
  | none => .error .notFound
  | some ex =>
    if ex.buyer_id ≠ actor ∧ ex.seller_id ≠ actor then .error .forbidden
    else if ex.status = .completed then .error .alreadyCompleted
    else
      let ev : ExchangeEvent :=
        { exchange_id := exchange_id, event_type := .cancelled,
          by_user_id := some actor, notes := reason }
      let s1 : SysState :=
        { s with
            exchanges := setA s.exchanges exchange_id
              { ex with status := .cancelled, cancellation_reason := reason },
            events := s.events ++ [ev] }
      match lookupA s1.offers ex.offer_id with
      | some offer =>
          .ok { s1 with offers := setA s1.offers ex.offer_id { offer with status := .active } }
      | none => .ok s1

/-- The HTTPExceptions raised by confirm_exchange
(app/api/v1/endpoints/exchanges.py lines 304-458); insufficientBalance is
the ValueError propagated from add_credits_transaction. -/
inductive ConfirmError where
  | notFound | forbidden | invalidState | alreadyConfirmed | insufficientBalance
deriving DecidableEq, Repr

/-- Outcome of one confirm_exchange request: the response (ok or a raised
error) and the state the database is left in.  An error raised before any
commit leaves the original state; an error raised after an inner commit
leaves the state committed at that point. -/
structure ConfirmOutcome where
  result : Except ConfirmError Unit
  state : SysState
deriving Repr

/-- Increment of the sustainability and experience points of both parties
(app/api/v1/endpoints/exchanges.py lines 415-424). -/
def grantPoints (s : SysState) (uid : Nat) : SysState :=
  match lookupA s.users uid with
  | some u =>
      { s with users := (setA s.users uid
          { u with sustainability_points := u.sustainability_points + 10,
                   experience_points := u.experience_points + 15 }) }
  | none => s

/-- The session state built by the completion block before any ledger
write (app/api/v1/endpoints/exchanges.py lines 376-390): exchange set to
completed with completed_at, one completed event appended, and the offer —
when it exists — set to completed. -/
def completion_working (s1 : SysState) (ex : Exchange) (exchange_id : Nat)
    (actor : Nat) (now : Time) : SysState :=
  let ex3 : Exchange := { ex with status := .completed, completed_at := some now }
  let cev : ExchangeEvent :=
    { exchange_id := exchange_id, event_type := .completed,
      by_user_id := some actor, notes := none }
  let s2 : SysState :=
    { s1 with exchanges := setA s1.exchanges exchange_id ex3,
              events := s1.events ++ [cev] }
  match lookupA s2.offers ex.offer_id with
  | some offer =>
      { s2 with offers := setA s2.offers ex.offer_id { offer with status := .completed } }
  | none => s2

/-- The completion path of confirm_exchange
(app/api/v1/endpoints/exchanges.py lines 374-441), run when both flags have
just become true.  s0 is the last committed state (the state at request
start: nothing was committed before this point), s1 the working session
state with the new flag and check-in event; ex carries the
identities and amount.  The buyer debit and the seller credit go through
add_credits_transaction, which commits internally on success; a ValueError
from the buyer debit therefore rolls the session back to s0, while a
ValueError from the seller credit would leave the state the buyer debit
committed. -/
def complete_exchange (s0 s1 : SysState) (ex : Exchange) (exchange_id : Nat)
    (actor : Nat) (now : Time) : ConfirmOutcome :=
  let s3 := completion_working s1 ex exchange_id actor now
  match add_credits_transaction s3 ex.buyer_id .exchange_payment
          (-ex.credits_amount) (some exchange_id)
          (some "Pago por intercambio") now with
  | .error _ => ⟨.error .insufficientBalance, s0⟩
  | .ok (s4, _) =>
    match add_credits_transaction s4 ex.seller_id .exchange_received
            ex.credits_amount (some exchange_id)
            (some "Recibo por intercambio") now with
    | .error _ => ⟨.error .insufficientBalance, s4⟩
    | .ok (s5, _) =>
      ⟨.ok (), grantPoints (grantPoints s5 ex.buyer_id) ex.seller_id⟩

/-- The exchange as rewritten by the confirmation block
(app/api/v1/endpoints/exchanges.py lines 341-363): the flag of the caller and
timestamp are set, and a status of accepted advances to in_progress. -/
def confirmedExchange (ex : Exchange) (actor : Nat) (now : Time) : Exchange :=
  let is_buyer := ex.buyer_id = actor
  let ex1 : Exchange :=
    if is_buyer then
      { ex with buyer_confirmed := true, buyer_confirmed_at := some now }
    else
      { ex with seller_confirmed := true, seller_confirmed_at := some now }
  if ex1.status = .accepted then { ex1 with status := .in_progress } else ex1

/-- The check-in event recorded by the confirmation block
(app/api/v1/endpoints/exchanges.py lines 342 and 365-372). -/
def checkInEvent (ex : Exchange) (exchange_id : Nat) (actor : Nat)
    (notes : Option String) : ExchangeEvent :=
  { exchange_id := exchange_id,
    event_type := if ex.buyer_id = actor then .check_in_buyer else .check_in_seller,
    by_user_id := some actor, notes := notes }

/-- confirm_exchange (app/api/v1/endpoints/exchanges.py lines 304-458).
The caller must be a participant, the status accepted or in_progress, and
the own confirmation flag of the caller still unset; the flag and its timestamp
are set, accepted advances to in_progress, and one check-in event is
appended.  When both flags are now true the completion path
(complete_exchange) runs in the same session, with the original state as
the rollback point since nothing was committed earlier in the request. -/
def confirm_exchange (s : SysState) (actor : Nat) (exchange_id : Nat)
    (notes : Option String) (now : Time) : ConfirmOutcome :=
  match lookupA s.exchanges exchange_id with
  | none => ⟨.error .notFound, s⟩
  | some ex =>
    if ex.buyer_id ≠ actor ∧ ex.seller_id ≠ actor then ⟨.error .forbidden, s⟩
    else if ex.status ≠ .accepted ∧ ex.status ≠ .in_progress then
      ⟨.error .invalidState, s⟩
    else
      let is_buyer := ex.buyer_id = actor
      if is_buyer ∧ ex.buyer_confirmed then ⟨.error .alreadyConfirmed, s⟩
      else if ¬is_buyer ∧ ex.seller_confirmed then ⟨.error .alreadyConfirmed, s⟩
      else
        let ex2 := confirmedExchange ex actor now
        let ev := checkInEvent ex exchange_id actor notes
        let s1 : SysState :=
          { s with exchanges := setA s.exchanges exchange_id ex2,
                   events := s.events ++ [ev] }
        if ex2.buyer_confirmed ∧ ex2.seller_confirmed then
          complete_exchange s s1 ex2 exchange_id actor now
        else
          ⟨.ok (), s1⟩

/-! ### Derived ledger notions and basic lemmas -/

/-- Sum of the signed amounts of the ledger entries of one user. -/
def sumAmounts (ledger : List LedgerEntry) (uid : Nat) : Int :=
  ((userEntries ledger uid).map (fun e => e.amount)).sum

/-- Modelled from the spec: the spec asks for the balance_after of the most
recent entry ordered by a monotonic per-user sequence number.  Insertion
order is that sequence, so this is the balance_after of the user
last-inserted entry.  The source has no such sequence column; this
definition exists to be compared with get_user_balance. -/
def balanceBySeq (ledger : List LedgerEntry) (uid : Nat) : Int :=
  match (userEntries ledger uid).getLast? with
  | some e => e.balance_after
  | none => 0

/-- Per-user timestamps strictly increase along the insertion order. -/
def StrictTimes (ledger : List LedgerEntry) (uid : Nat) : Prop :=
  (userEntries ledger uid).Pairwise (fun a b => a.created_at < b.created_at)

theorem lookupA_mem {α : Type} {l : List (Nat × α)} {k : Nat} {v : α}
    (h : lookupA l k = some v) : (k, v) ∈ l := by
  induction l with
  | nil => simp [lookupA] at h
  | cons p rest ih =>
    obtain ⟨k0, v0⟩ := p
    by_cases hk : k0 = k
    · subst hk
      simp [lookupA] at h
      subst h
      exact List.mem_cons_self _ _
    · simp [lookupA, hk] at h
      exact List.mem_cons_of_mem _ (ih h)

theorem setA_mem {α : Type} {l : List (Nat × α)} {k : Nat} {v : α} {p : Nat × α}
    (h : p ∈ setA l k v) : p = (k, v) ∨ p ∈ l := by
  induction l with
  | nil => simp [setA] at h
  | cons q rest ih =>
    obtain ⟨k0, v0⟩ := q
    by_cases hk : k0 = k
    · subst hk
      simp [setA] at h
      rcases h with h | h
      · exact Or.inl (by simp [h])
      · exact Or.inr (List.mem_cons_of_mem _ h)
    · simp [setA, hk] at h
      rcases h with h | h
      · exact Or.inr (by simp [h])
      · rcases ih h with h1 | h1
        · exact Or.inl h1
        · exact Or.inr (List.mem_cons_of_mem _ h1)

theorem lookupA_setA_self {α : Type} {l : List (Nat × α)} {k : Nat} {v0 : α}
    (h : lookupA l k = some v0) (v : α) : lookupA (setA l k v) k = some v := by
  induction l with
  | nil => simp [lookupA] at h
  | cons q rest ih =>
    obtain ⟨k0, v1⟩ := q
    by_cases hk : k0 = k
    · subst hk
      simp [setA, lookupA]
    · simp [lookupA, hk] at h
      simp [setA, lookupA, hk]
      exact ih h

theorem userEntries_append (l : List LedgerEntry) (e : LedgerEntry) (uid : Nat) :
    userEntries (l ++ [e]) uid =
      userEntries l uid ++ (if e.user_id = uid then [e] else []) := by
  by_cases h : e.user_id = uid <;> simp [userEntries, List.filter_append, h]

theorem latestByCreatedAt_append_max (l : List LedgerEntry) (e : LedgerEntry)
    (h : ∀ a ∈ l, a.created_at < e.created_at) :
    latestByCreatedAt (l ++ [e]) = some e := by
  induction l with
  | nil => simp [latestByCreatedAt]
  | cons x xs ih =>
    have hx : x.created_at < e.created_at := h x (List.mem_cons_self _ _)
    have hxs : ∀ a ∈ xs, a.created_at < e.created_at :=
      fun a ha => h a (List.mem_cons_of_mem _ ha)
    simp only [List.cons_append, latestByCreatedAt]
    rw [show xs.append [e] = xs ++ [e] from rfl, ih hxs]
    simp [hx]

theorem get_user_balance_append_self (l : List LedgerEntry) (e : LedgerEntry)
    (uid : Nat) (heu : e.user_id = uid)
    (h : ∀ a ∈ userEntries l uid, a.created_at < e.created_at) :
    get_user_balance (l ++ [e]) uid = e.balance_after := by
  rw [get_user_balance, userEntries_append, if_pos heu,
    latestByCreatedAt_append_max _ _ h]

theorem get_user_balance_append_other (l : List LedgerEntry) (e : LedgerEntry)
    (uid : Nat) (heu : e.user_id ≠ uid) :
    get_user_balance (l ++ [e]) uid = get_user_balance l uid := by
  rw [get_user_balance, userEntries_append, if_neg heu, List.append_nil,
    get_user_balance]

theorem sumAmounts_append_self (l : List LedgerEntry) (e : LedgerEntry)
    (uid : Nat) (heu : e.user_id = uid) :
    sumAmounts (l ++ [e]) uid = sumAmounts l uid + e.amount := by
  rw [sumAmounts, userEntries_append, if_pos heu]
  simp [sumAmounts]

theorem sumAmounts_append_other (l : List LedgerEntry) (e : LedgerEntry)
    (uid : Nat) (heu : e.user_id ≠ uid) :
    sumAmounts (l ++ [e]) uid = sumAmounts l uid := by
  rw [sumAmounts, userEntries_append, if_neg heu, List.append_nil, sumAmounts]

theorem latestByCreatedAt_eq_getLast (l : List LedgerEntry)
    (h : l.Pairwise (fun a b => a.created_at < b.created_at)) :
    latestByCreatedAt l = l.getLast? := by
  induction l with
  | nil => rfl
  | cons e es ih =>
    rcases List.pairwise_cons.mp h with ⟨hhead, hes⟩
    cases es with
    | nil => simp [latestByCreatedAt]
    | cons x xs =>
      have hne : (x :: xs) ≠ [] := by simp
      have hlast : (x :: xs).getLast? = some ((x :: xs).getLast hne) :=
        List.getLast?_eq_getLast_of_ne_nil hne
      have hmem : (x :: xs).getLast hne ∈ x :: xs := List.getLast_mem hne
      have hlt : e.created_at < ((x :: xs).getLast hne).created_at := hhead _ hmem
      have hstep : latestByCreatedAt (e :: x :: xs) =
          match latestByCreatedAt (x :: xs) with
          | none => some e
          | some a => if e.created_at < a.created_at then some a else some e := rfl
      rw [hstep, ih hes, hlast]
      show (if e.created_at < ((x :: xs).getLast hne).created_at
            then some ((x :: xs).getLast hne) else some e) = (e :: x :: xs).getLast?
      rw [if_pos hlt, List.getLast?_cons_cons, hlast]

/-! ### Shared concrete fixtures -/

/-- An offer owned by user 2, worth 50 credits, initially active. -/
def offA : Offer :=
  { user_id := 2, status := .active, credits_value := 50, title := "Bici" }

/-- An opening grant of 100 credits to user 1. -/
def entry0 : LedgerEntry :=
  { user_id := 1, transaction_type := .initial_grant, amount := 100,
    balance_after := 100, reference_id := none, description := none,
    created_at := 1 }

/-- A small concrete database: users 1 and 2, one active offer, user 1
holding 100 credits. -/
def baseS : SysState :=
  { offers := [(10, offA)], exchanges := [], events := [], ledger := [entry0],
    rewards := [(3, { name := "Taza", credits_cost := 40, stock_quantity := 2,
                      is_active := true })],
    claims := [], users := [(1, ⟨0, 0⟩), (2, ⟨0, 0⟩)], next_claim_id := 0 }

/-- Claim C4: add_credits_transaction computes the new balance as current
balance plus amount, fails with InsufficientBalance exactly when that is
negative, and otherwise appends exactly one entry carrying the new balance
and returns it, touching nothing else. -/
theorem record_characterization (s : SysState) (uid : Nat) (ttype : TxType)
    (amount : Int) (ref : Option Nat) (descr : Option String) (now : Time) :
    (add_credits_transaction s uid ttype amount ref descr now =
        .error .insufficientBalance
      ↔ get_user_balance s.ledger uid + amount < 0)
    ∧ ∀ s2 e, add_credits_transaction s uid ttype amount ref descr now = .ok (s2, e) →
        s2.ledger = s.ledger ++ [e]
        ∧ e.balance_after = get_user_balance s.ledger uid + amount
        ∧ e.user_id = uid ∧ e.amount = amount ∧ e.created_at = now
        ∧ e.transaction_type = ttype ∧ e.reference_id = ref
        ∧ s2.offers = s.offers ∧ s2.exchanges = s.exchanges
        ∧ s2.events = s.events ∧ s2.rewards = s.rewards
        ∧ s2.claims = s.claims ∧ s2.users = s.users
        ∧ s2.next_claim_id = s.next_claim_id := by
  constructor
  · unfold add_credits_transaction
    by_cases h : get_user_balance s.ledger uid + amount < 0
    · simp [h]
    · simp [h]
  · intro s2 e h
    unfold add_credits_transaction at h
    by_cases hb : get_user_balance s.ledger uid + amount < 0
    · simp [hb] at h
    · simp [hb] at h
      obtain ⟨hs2, he⟩ := h
      subst he
      rw [← hs2]
      simp

/-- Witness for C4 at a concrete input: a debit of 200 against a balance of
100 is rejected. -/
theorem record_characterization_witness :
    add_credits_transaction baseS 1 .admin_adjustment (-200) none none 5 =
      .error .insufficientBalance :=
  (record_characterization baseS 1 .admin_adjustment (-200) none none 5).1.mpr
    (by decide)

/-- A ledger whose second-inserted entry carries an earlier wall-clock
timestamp than its first (a clock regression between two commits). -/
def cexLedger : List LedgerEntry :=
  [{ user_id := 1, transaction_type := .initial_grant, amount := 100,
     balance_after := 100, reference_id := none, description := none,
     created_at := 10 },
   { user_id := 1, transaction_type := .admin_adjustment, amount := -50,
     balance_after := 50, reference_id := none, description := none,
     created_at := 5 }]

/-- Claim C6 counterexample: get_user_balance orders by the wall-clock
created_at column, so after a clock regression it returns the older
balance_after (100) instead of the balance of the last-appended entry (50):
the code does not use a monotonic per-user sequence number. -/
theorem balance_wallclock_cex :
    get_user_balance cexLedger 1 = 100 ∧ balanceBySeq cexLedger 1 = 50 ∧
    get_user_balance cexLedger 1 ≠ balanceBySeq cexLedger 1 := by
  refine ⟨by decide, by decide, by decide⟩

/-- Claim C6 amended: get_user_balance returns the balance_after of the
entry with the greatest wall-clock created_at; it agrees with the
sequence-number (insertion-order) reading exactly when the per-user
timestamps strictly increase along the insertion order. -/
theorem balance_wallclock_amended (ledger : List LedgerEntry) (uid : Nat)
    (h : StrictTimes ledger uid) :
    get_user_balance ledger uid = balanceBySeq ledger uid := by
  unfold get_user_balance balanceBySeq
  rw [latestByCreatedAt_eq_getLast _ h]

/-- Witness for the amended C6 on a two-entry ledger with increasing
timestamps. -/
theorem balance_wallclock_amended_witness :
    StrictTimes [entry0] 1 ∧ get_user_balance [entry0] 1 = balanceBySeq [entry0] 1 :=
  ⟨by constructor <;> simp, balance_wallclock_amended [entry0] 1 (by constructor <;> simp)⟩

/-- The database state after a first successful create_exchange of buyer 1
against offer 10: the exchange is pending and the offer reserved. -/
def c3S1 : SysState :=
  match create_exchange baseS 1 10 none none none 100 with
  | .ok (s, _, _) => s
  | .error _ => baseS

/-- Claim C3 counterexample: after a first create (exchange 100 pending for
buyer 1 on offer 10, offer reserved), a retried create_exchange with the
same buyer and offer does not return the existing Exchange: it fails with
the offer-not-active error, because create_exchange never looks for an
existing Exchange of the pair. -/
theorem create_retry_cex :
    c3S1.exchanges.length = 1
    ∧ (lookupA c3S1.exchanges 100).map (fun e => (e.buyer_id, e.offer_id, e.status))
        = some (1, 10, .pending)
    ∧ (lookupA c3S1.offers 10).map (fun o => o.status) = some .reserved
    ∧ create_exchange c3S1 1 10 none none none 101 = .error .offerNotActive := by
  refine ⟨by decide, by decide, by decide, by decide⟩

/-- Claim C3 amended: create_exchange is not idempotent.  While a
non-cancelled Exchange holds the offer (so the offer is not active, being
reserved), any retried create for that offer fails with the
offer-not-active error instead of returning the existing Exchange. -/
theorem create_retry_reserved_error (s : SysState) (buyer offer_id : Nat)
    (loc : Option Nat) (sched : Option Time) (notes : Option String)
    (new_id : Nat) (off : Offer)
    (h : lookupA s.offers offer_id = some off)
    (hst : off.status ≠ .active) :
    create_exchange s buyer offer_id loc sched notes new_id =
      .error .offerNotActive := by
  unfold create_exchange
  rw [h]
  simp [hst]

/-- Witness for the amended C3 on the concrete post-create state. -/
theorem create_retry_reserved_error_witness :
    create_exchange c3S1 1 10 none none none 101 = .error .offerNotActive :=
  create_retry_reserved_error c3S1 1 10 none none none 101
    { offA with status := .reserved } (by decide) (by decide)

/-- Claim C5: a successful claim_reward on the concrete base state (reward 3,
cost 40, stock 2; user 1 with balance 100) checks activity and stock,
decrements the stock to 1, creates one pending RewardClaim spending 40, and
appends exactly one ledger debit of 40 leaving balance 60 — but that
reference_id of that debit is left none, never updated to the claim id announced
by the source comment, so the ledger entry does not identify the claim. -/
theorem claim_reference_bug :
    ((claim_reward baseS 1 3 7).toOption.map (fun r => r.1.ledger.length) = some 2)
    ∧ ((claim_reward baseS 1 3 7).toOption.map (fun r =>
          r.1.ledger.getLast?.map (fun e => (e.amount, e.reference_id, e.balance_after)))
        = some (some (-40, none, 60)))
    ∧ ((claim_reward baseS 1 3 7).toOption.map (fun r =>
          (lookupA r.1.rewards 3).map (fun rw => rw.stock_quantity))
        = some (some 1))
    ∧ ((claim_reward baseS 1 3 7).toOption.map (fun r =>
          (r.2.2.status, r.2.2.credits_spent)) = some (.pending, 40))
    ∧ ((claim_reward baseS 1 3 7).toOption.map (fun r => r.1.claims.length) = some 1) := by
  refine ⟨by decide, by decide, by decide, by decide, by decide⟩

/-- A claim already approved at time 3, and a claim already rejected. -/
def c7Approved : RewardClaim :=
  { user_id := 1, reward_id := 3, credits_spent := 40, status := .approved,
    approved_at := some 3, delivered_at := none, notes := none }

/-- A rejected claim used to exercise an invalid transition edge. -/
def c7Rejected : RewardClaim :=
  { user_id := 1, reward_id := 3, credits_spent := 40, status := .rejected,
    approved_at := none, delivered_at := none, notes := none }

/-- Base state plus the two claims above. -/
def c7S : SysState :=
  { baseS with claims := [(5, c7Approved), (6, c7Rejected)], next_claim_id := 7 }

/-- Claim C7 counterexample: update_claim_status accepts the invalid edge
rejected to approved, and a repeated call with the same target status
approved is not a no-op: it refreshes approved_at from time 3 to the time
of the call. -/
theorem update_claim_status_cex :
    ((update_claim_status c7S 6 .approved none 9).map (fun p => p.2.status)
        = some .approved)
    ∧ ((update_claim_status c7S 5 .approved none 9).map
          (fun p => (p.2.status, p.2.approved_at))
        = some (.approved, some 9)) := by
  refine ⟨by decide, by decide⟩

/-- Claim C7 amended: update_claim_status validates nothing about the
transition: for any existing claim and any requested status it succeeds,
sets the status, and stamps approved_at (respectively delivered_at) to the
call time whenever the requested status is approved (delivered) — also on
repeated calls, so repeated calls succeed but move the timestamps. -/
theorem update_claim_status_amended (s : SysState) (claim_id : Nat)
    (status : ClaimStatus) (notes : Option String) (now : Time)
    (c : RewardClaim) (h : lookupA s.claims claim_id = some c) :
    ∃ c2, update_claim_status s claim_id status notes now =
        some ({ s with claims := setA s.claims claim_id c2 }, c2)
      ∧ c2.status = status
      ∧ c2.user_id = c.user_id ∧ c2.reward_id = c.reward_id
      ∧ c2.credits_spent = c.credits_spent
      ∧ (status = .approved → c2.approved_at = some now)
      ∧ (status = .delivered → c2.delivered_at = some now) := by
  unfold update_claim_status
  rw [h]
  refine ⟨_, rfl, ?_⟩
  cases status <;> simp

/-- Witness for the amended C7: the repeated approved call on claim 5. -/
theorem update_claim_status_amended_witness :
    ∃ c2, update_claim_status c7S 5 .approved none 9 =
        some ({ c7S with claims := setA c7S.claims 5 c2 }, c2)
      ∧ c2.status = .approved
      ∧ c2.user_id = c7Approved.user_id ∧ c2.reward_id = c7Approved.reward_id
      ∧ c2.credits_spent = c7Approved.credits_spent
      ∧ (ClaimStatus.approved = .approved → c2.approved_at = some 9)
      ∧ (ClaimStatus.approved = .delivered → c2.delivered_at = some 9) :=
  update_claim_status_amended c7S 5 .approved none 9 c7Approved (by decide)

/-- A reserved offer and an in-progress exchange with the buyer already
confirmed, used for the cancellation frame claim. -/
def offReserved : Offer := { offA with status := .reserved }

/-- The exchange of buyer 1 and seller 2 over offer 10, in progress, with a
buyer confirmation already recorded. -/
def exInProg : Exchange :=
  { offer_id := 10, buyer_id := 1, seller_id := 2, location_id := none,
    status := .in_progress, credits_amount := 50, buyer_confirmed := true,
    seller_confirmed := false, buyer_confirmed_at := some 5,
    seller_confirmed_at := none, scheduled_at := none, completed_at := none,
    cancellation_reason := none }

/-- Base state holding that reserved offer and in-progress exchange. -/
def c10S : SysState :=
  { baseS with offers := [(10, offReserved)], exchanges := [(100, exInProg)] }

/-- Claim C10: a successful cancel by a participant of a non-completed
exchange rewrites exactly the status (to cancelled) and the cancellation
reason of the exchange, reverts the offer to active and appends one
cancelled event; every other exchange field — confirmation flags and
timestamps, credits_amount, completed_at — and the ledger, claims, rewards
and users are untouched. -/
theorem cancel_frame (s : SysState) (actor exid : Nat) (reason : Option String)
    (ex : Exchange) (off : Offer)
    (hex : lookupA s.exchanges exid = some ex)
    (hpart : ex.buyer_id = actor ∨ ex.seller_id = actor)
    (hst : ex.status ≠ .completed)
    (hoff : lookupA s.offers ex.offer_id = some off) :
    cancel_exchange s actor exid reason = .ok
      { s with
          exchanges := setA s.exchanges exid
            { ex with status := .cancelled, cancellation_reason := reason },
          events := s.events ++ [{ exchange_id := exid, event_type := .cancelled,
                                   by_user_id := some actor, notes := reason }],
          offers := setA s.offers ex.offer_id { off with status := .active } } := by
  have hpart2 : ¬(ex.buyer_id ≠ actor ∧ ex.seller_id ≠ actor) := by
    rintro ⟨h1, h2⟩
    rcases hpart with hp | hp
    · exact h1 hp
    · exact h2 hp
  simp only [cancel_exchange, hex]
  rw [if_neg hpart2, if_neg hst]
  simp only [hoff]

/-- Witness for C10: seller 2 cancels the in-progress exchange 100. -/
theorem cancel_frame_witness :
    cancel_exchange c10S 2 100 (some "motivo") = .ok
      { c10S with
          exchanges := setA c10S.exchanges 100
            { exInProg with status := .cancelled,
                            cancellation_reason := some "motivo" },
          events := c10S.events ++
            [{ exchange_id := 100, event_type := .cancelled,
               by_user_id := some 2, notes := some "motivo" }],
          offers := setA c10S.offers exInProg.offer_id
            { offReserved with status := .active } } :=
  cancel_frame c10S 2 100 (some "motivo") exInProg offReserved (by decide)
    (Or.inr rfl) (by decide) (by decide)

/-! ### Frame lemmas for the completion path -/

theorem add_credits_error_eq (s : SysState) (uid : Nat) (ttype : TxType)
    (amount : Int) (ref : Option Nat) (descr : Option String) (now : Time)
    (h : get_user_balance s.ledger uid + amount < 0) :
    add_credits_transaction s uid ttype amount ref descr now =
      .error .insufficientBalance := by
  unfold add_credits_transaction
  rw [if_pos h]

theorem add_credits_ok_eq (s : SysState) (uid : Nat) (ttype : TxType)
    (amount : Int) (ref : Option Nat) (descr : Option String) (now : Time)
    (h : ¬(get_user_balance s.ledger uid + amount < 0)) :
    add_credits_transaction s uid ttype amount ref descr now =
      .ok ({ s with ledger := s.ledger ++
              [{ user_id := uid, transaction_type := ttype, amount := amount,
                 balance_after := get_user_balance s.ledger uid + amount,
                 reference_id := ref, description := descr, created_at := now }] },
           { user_id := uid, transaction_type := ttype, amount := amount,
             balance_after := get_user_balance s.ledger uid + amount,
             reference_id := ref, description := descr, created_at := now }) := by
  unfold add_credits_transaction
  rw [if_neg h]

theorem completion_working_ledger (s1 : SysState) (ex : Exchange)
    (exid actor : Nat) (now : Time) :
    (completion_working s1 ex exid actor now).ledger = s1.ledger := by
  simp only [completion_working]
  split <;> rfl

theorem completion_working_exchanges (s1 : SysState) (ex : Exchange)
    (exid actor : Nat) (now : Time) :
    (completion_working s1 ex exid actor now).exchanges =
      setA s1.exchanges exid { ex with status := .completed, completed_at := some now } := by
  simp only [completion_working]
  split <;> rfl

theorem completion_working_events (s1 : SysState) (ex : Exchange)
    (exid actor : Nat) (now : Time) :
    (completion_working s1 ex exid actor now).events =
      s1.events ++ [{ exchange_id := exid, event_type := .completed,
                      by_user_id := some actor, notes := none }] := by
  simp only [completion_working]
  split <;> rfl

theorem grantPoints_ledger (s : SysState) (u : Nat) :
    (grantPoints s u).ledger = s.ledger := by
  unfold grantPoints
  split <;> rfl

theorem grantPoints_exchanges (s : SysState) (u : Nat) :
    (grantPoints s u).exchanges = s.exchanges := by
  unfold grantPoints
  split <;> rfl

theorem grantPoints_events (s : SysState) (u : Nat) :
    (grantPoints s u).events = s.events := by
  unfold grantPoints
  split <;> rfl

theorem confirmedExchange_buyer_id (ex : Exchange) (actor : Nat) (now : Time) :
    (confirmedExchange ex actor now).buyer_id = ex.buyer_id := by
  simp only [confirmedExchange]
  split <;> split <;> rfl

theorem confirmedExchange_seller_id (ex : Exchange) (actor : Nat) (now : Time) :
    (confirmedExchange ex actor now).seller_id = ex.seller_id := by
  simp only [confirmedExchange]
  split <;> split <;> rfl

theorem confirmedExchange_credits (ex : Exchange) (actor : Nat) (now : Time) :
    (confirmedExchange ex actor now).credits_amount = ex.credits_amount := by
  simp only [confirmedExchange]
  split <;> split <;> rfl

theorem confirmedExchange_buyer_inprog (ex : Exchange) (actor : Nat) (now : Time)
    (h : ex.buyer_id = actor) (hst : ex.status = .in_progress) :
    confirmedExchange ex actor now =
      { ex with buyer_confirmed := true, buyer_confirmed_at := some now } := by
  simp [confirmedExchange, h, hst]

theorem confirmedExchange_seller_inprog (ex : Exchange) (actor : Nat) (now : Time)
    (h : ¬(ex.buyer_id = actor)) (hst : ex.status = .in_progress) :
    confirmedExchange ex actor now =
      { ex with seller_confirmed := true, seller_confirmed_at := some now } := by
  simp [confirmedExchange, h, hst]

theorem complete_exchange_insufficient (s0 s1 : SysState) (ex : Exchange)
    (exid actor : Nat) (now : Time)
    (hled : s1.ledger = s0.ledger)
    (hbal : get_user_balance s0.ledger ex.buyer_id < ex.credits_amount) :
    complete_exchange s0 s1 ex exid actor now =
      ⟨.error .insufficientBalance, s0⟩ := by
  simp only [complete_exchange]
  rw [add_credits_error_eq]
  rw [completion_working_ledger, hled]
  omega

theorem add_credits_error_implies (s : SysState) (uid : Nat) (ttype : TxType)
    (amount : Int) (ref : Option Nat) (descr : Option String) (now : Time)
    (er : CreditsError)
    (h : add_credits_transaction s uid ttype amount ref descr now = .error er) :
    get_user_balance s.ledger uid + amount < 0 := by
  by_cases hb : get_user_balance s.ledger uid + amount < 0
  · exact hb
  · rw [add_credits_ok_eq _ _ _ _ _ _ _ hb] at h
    exact absurd h (by simp)

theorem add_credits_ok_parts (s : SysState) (uid : Nat) (ttype : TxType)
    (amount : Int) (ref : Option Nat) (descr : Option String) (now : Time)
    (s2 : SysState) (e : LedgerEntry)
    (h : add_credits_transaction s uid ttype amount ref descr now = .ok (s2, e)) :
    s2.ledger = s.ledger ++ [e] ∧ e.user_id = uid ∧ e.amount = amount
    ∧ e.created_at = now
    ∧ e.balance_after = get_user_balance s.ledger uid + amount
    ∧ s2.offers = s.offers ∧ s2.exchanges = s.exchanges ∧ s2.events = s.events
    ∧ s2.rewards = s.rewards ∧ s2.claims = s.claims ∧ s2.users = s.users
    ∧ s2.next_claim_id = s.next_claim_id := by
  by_cases hb : get_user_balance s.ledger uid + amount < 0
  · rw [add_credits_error_eq _ _ _ _ _ _ _ hb] at h
    exact absurd h (by simp)
  · rw [add_credits_ok_eq _ _ _ _ _ _ _ hb] at h
    injection h with h2
    injection h2 with hs2 he
    subst hs2
    subst he
    simp

theorem complete_exchange_all_or_nothing (s0 s1 : SysState) (ex : Exchange)
    (exid actor : Nat) (now : Time)
    (hled : s1.ledger = s0.ledger)
    (hne : ex.buyer_id ≠ ex.seller_id)
    (hamt : 0 ≤ ex.credits_amount)
    (hbal : 0 ≤ get_user_balance s0.ledger ex.seller_id) :
    complete_exchange s0 s1 ex exid actor now = ⟨.error .insufficientBalance, s0⟩
    ∨ (complete_exchange s0 s1 ex exid actor now).result = .ok () := by
  simp only [complete_exchange]
  cases hb : add_credits_transaction (completion_working s1 ex exid actor now)
      ex.buyer_id .exchange_payment (-ex.credits_amount) (some exid)
      (some "Pago por intercambio") now with
  | error e1 => exact Or.inl rfl
  | ok p =>
    obtain ⟨s4, e4⟩ := p
    dsimp only
    obtain ⟨hl4, hu4, -⟩ := add_credits_ok_parts _ _ _ _ _ _ _ _ _ hb
    have hsell : get_user_balance s4.ledger ex.seller_id =
        get_user_balance s0.ledger ex.seller_id := by
      rw [hl4, get_user_balance_append_other _ _ _ (by rw [hu4]; exact hne),
        completion_working_ledger, hled]
    cases hb2 : add_credits_transaction s4 ex.seller_id .exchange_received
        ex.credits_amount (some exid) (some "Recibo por intercambio") now with
    | error e2 =>
      have := add_credits_error_implies _ _ _ _ _ _ _ _ hb2
      rw [hsell] at this
      omega
    | ok p2 => exact Or.inr rfl

/-- Claim C1: when both confirmation flags become true and the buyer
debit fails for insufficient balance (buyer balance below credits_amount),
confirm_exchange aborts the whole completion before anything is committed:
it returns the insufficient-balance error and the stored state is exactly
the prior one — the exchange still in_progress, the ledger without new
entries, the offers (hence the reservation) untouched. -/
theorem confirm_insufficient_aborts (s : SysState) (actor exid : Nat)
    (notes : Option String) (now : Time) (ex : Exchange)
    (hex : lookupA s.exchanges exid = some ex)
    (hst : ex.status = .in_progress)
    (hrole :
      (ex.buyer_id = actor ∧ ex.buyer_confirmed = false ∧ ex.seller_confirmed = true)
      ∨ (¬(ex.buyer_id = actor) ∧ ex.seller_id = actor
          ∧ ex.seller_confirmed = false ∧ ex.buyer_confirmed = true))
    (hbal : get_user_balance s.ledger ex.buyer_id < ex.credits_amount) :
    confirm_exchange s actor exid notes now = ⟨.error .insufficientBalance, s⟩
    ∧ (confirm_exchange s actor exid notes now).state.ledger = s.ledger
    ∧ lookupA (confirm_exchange s actor exid notes now).state.exchanges exid = some ex
    ∧ (confirm_exchange s actor exid notes now).state.offers = s.offers := by
  have hmain : confirm_exchange s actor exid notes now =
      ⟨.error .insufficientBalance, s⟩ := by
    simp only [confirm_exchange, hex]
    rcases hrole with ⟨ha, hbc, hsc⟩ | ⟨ha, has, hsc, hbc⟩
    · rw [if_neg (fun hc => hc.1 ha)]
      rw [if_neg (fun hc => hc.2 hst)]
      rw [if_neg (fun hc => by rw [hbc] at hc; exact Bool.false_ne_true hc.2)]
      rw [if_neg (fun hc => hc.1 ha)]
      rw [confirmedExchange_buyer_inprog ex actor now ha hst]
      rw [if_pos ⟨rfl, hsc⟩]
      exact complete_exchange_insufficient _ _ _ _ _ _ rfl hbal
    · rw [if_neg (fun hc => hc.2 has)]
      rw [if_neg (fun hc => hc.2 hst)]
      rw [if_neg (fun hc => ha hc.1)]
      rw [if_neg (fun hc => by rw [hsc] at hc; exact Bool.false_ne_true hc.2)]
      rw [confirmedExchange_seller_inprog ex actor now ha hst]
      rw [if_pos ⟨hbc, rfl⟩]
      exact complete_exchange_insufficient _ _ _ _ _ _ rfl hbal
  refine ⟨hmain, by rw [hmain], by rw [hmain]; exact hex, by rw [hmain]⟩

/-- Witness for C1: the in-progress exchange of Scenario B — buyer balance
30, price 50, buyer already confirmed — aborts on the confirm by the seller. -/
def c1Ledger : List LedgerEntry :=
  [{ user_id := 1, transaction_type := .initial_grant, amount := 30,
     balance_after := 30, reference_id := none, description := none,
     created_at := 1 }]

/-- The in-progress exchange with only the buyer confirmed. -/
def exBuyerConfirmed : Exchange :=
  { exInProg with buyer_confirmed := true, seller_confirmed := false }

/-- Scenario B state: reserved offer, in-progress exchange, buyer balance 30. -/
def c1S : SysState :=
  { baseS with offers := [(10, offReserved)], exchanges := [(100, exBuyerConfirmed)],
               ledger := c1Ledger }

theorem confirm_insufficient_aborts_witness :
    confirm_exchange c1S 2 100 none 9 = ⟨.error .insufficientBalance, c1S⟩
    ∧ (confirm_exchange c1S 2 100 none 9).state.ledger = c1S.ledger
    ∧ lookupA (confirm_exchange c1S 2 100 none 9).state.exchanges 100 =
        some exBuyerConfirmed
    ∧ (confirm_exchange c1S 2 100 none 9).state.offers = c1S.offers :=
  confirm_insufficient_aborts c1S 2 100 none 9 exBuyerConfirmed (by decide)
    (by decide) (Or.inr ⟨by decide, by decide, by decide, by decide⟩) (by decide)

/-- Claim C9: whenever confirm_exchange fails, the stored state rolls back
to the starting state of the request — in particular the seller-side credit can
never be the failing step: with a non-negative credits_amount and a
non-negative seller balance, once the buyer debit commits the seller credit
always succeeds, so no error can surface after a partial commit. -/
theorem confirm_rollback_total (s : SysState) (actor exid : Nat)
    (notes : Option String) (now : Time) (ex : Exchange)
    (hex : lookupA s.exchanges exid = some ex)
    (hne : ex.buyer_id ≠ ex.seller_id)
    (hamt : 0 ≤ ex.credits_amount)
    (hbal : 0 ≤ get_user_balance s.ledger ex.seller_id)
    (er : ConfirmError)
    (hr : (confirm_exchange s actor exid notes now).result = .error er) :
    (confirm_exchange s actor exid notes now).state = s := by
  simp only [confirm_exchange, hex] at hr ⊢
  by_cases h1 : (ex.buyer_id ≠ actor ∧ ex.seller_id ≠ actor)
  · rw [if_pos h1]
  · rw [if_neg h1] at hr ⊢
    by_cases h2 : (ex.status ≠ .accepted ∧ ex.status ≠ .in_progress)
    · rw [if_pos h2]
    · rw [if_neg h2] at hr ⊢
      by_cases h3 : (ex.buyer_id = actor ∧ ex.buyer_confirmed = true)
      · rw [if_pos h3]
      · rw [if_neg h3] at hr ⊢
        by_cases h4 : (¬(ex.buyer_id = actor) ∧ ex.seller_confirmed = true)
        · rw [if_pos h4]
        · rw [if_neg h4] at hr ⊢
          by_cases h5 : ((confirmedExchange ex actor now).buyer_confirmed = true
              ∧ (confirmedExchange ex actor now).seller_confirmed = true)
          · rw [if_pos h5] at hr ⊢
            have hcp := complete_exchange_all_or_nothing s
              { s with
                  exchanges := setA s.exchanges exid (confirmedExchange ex actor now),
                  events := s.events ++ [checkInEvent ex exid actor notes] }
              (confirmedExchange ex actor now) exid actor now rfl
              (by rw [confirmedExchange_buyer_id, confirmedExchange_seller_id]; exact hne)
              (by rw [confirmedExchange_credits]; exact hamt)
              (by rw [confirmedExchange_seller_id]; exact hbal)
            rcases hcp with hcase | hcase
            · rw [hcase]
            · rw [hcase] at hr
              exact absurd hr (by simp)
          · rw [if_neg h5] at hr
            exact absurd hr (by simp)

/-- Witness for C9: a confirm that fails with already-confirmed rolls back
to the original state. -/
theorem confirm_rollback_total_witness :
    (confirm_exchange c1S 1 100 none 9).state = c1S :=
  confirm_rollback_total c1S 1 100 none 9 exBuyerConfirmed (by decide)
    (by decide) (by decide) (by decide) .alreadyConfirmed (by decide)

/-! ### Success-shape lemmas for the endpoint operations -/

theorem create_exchange_ok_parts (s : SysState) (buyer offer_id : Nat)
    (loc : Option Nat) (sched : Option Time) (notes : Option String)
    (new_id : Nat) (s2 : SysState) (i : Nat) (ex2 : Exchange)
    (h : create_exchange s buyer offer_id loc sched notes new_id = .ok (s2, i, ex2)) :
    i = new_id
    ∧ s2.events = s.events ++ [{ exchange_id := new_id, event_type := .created,
                                 by_user_id := some buyer, notes := notes }]
    ∧ s2.exchanges = s.exchanges ++ [(new_id, ex2)]
    ∧ s2.ledger = s.ledger ∧ s2.rewards = s.rewards ∧ s2.claims = s.claims
    ∧ s2.users = s.users
    ∧ ex2.buyer_id = buyer ∧ ex2.seller_id ≠ buyer ∧ ex2.status = .pending := by
  unfold create_exchange at h
  cases hoff : lookupA s.offers offer_id with
  | none => rw [hoff] at h; exact absurd h (by simp)
  | some off =>
    rw [hoff] at h
    dsimp only at h
    by_cases h1 : off.status ≠ .active
    · rw [if_pos h1] at h; exact absurd h (by simp)
    · rw [if_neg h1] at h
      by_cases h2 : off.user_id = buyer
      · rw [if_pos h2] at h; exact absurd h (by simp)
      · rw [if_neg h2] at h
        injection h with h3
        injection h3 with hs2 h4
        injection h4 with hi hex2
        subst hs2
        subst hi
        subst hex2
        simp [h2]

theorem accept_exchange_ok_parts (s : SysState) (actor exid : Nat)
    (s2 : SysState) (h : accept_exchange s actor exid = .ok s2) :
    ∃ ex, lookupA s.exchanges exid = some ex
    ∧ s2.events = s.events ++ [{ exchange_id := exid, event_type := .accepted,
                                 by_user_id := some actor, notes := none }]
    ∧ s2.exchanges = setA s.exchanges exid { ex with status := .accepted }
    ∧ s2.ledger = s.ledger ∧ s2.rewards = s.rewards ∧ s2.claims = s.claims
    ∧ s2.users = s.users := by
  unfold accept_exchange at h
  cases hx : lookupA s.exchanges exid with
  | none => rw [hx] at h; exact absurd h (by simp)
  | some ex =>
    rw [hx] at h
    dsimp only at h
    by_cases h1 : ex.seller_id ≠ actor
    · rw [if_pos h1] at h; exact absurd h (by simp)
    · rw [if_neg h1] at h
      by_cases h2 : ex.status ≠ .pending
      · rw [if_pos h2] at h; exact absurd h (by simp)
      · rw [if_neg h2] at h
        injection h with h3
        subst h3
        exact ⟨ex, rfl, rfl, rfl, rfl, rfl, rfl, rfl⟩

theorem cancel_exchange_ok_parts (s : SysState) (actor exid : Nat)
    (reason : Option String) (s2 : SysState)
    (h : cancel_exchange s actor exid reason = .ok s2) :
    ∃ ex, lookupA s.exchanges exid = some ex
    ∧ s2.events = s.events ++ [{ exchange_id := exid, event_type := .cancelled,
                                 by_user_id := some actor, notes := reason }]
    ∧ s2.exchanges = setA s.exchanges exid
        { ex with status := .cancelled, cancellation_reason := reason }
    ∧ s2.ledger = s.ledger ∧ s2.rewards = s.rewards ∧ s2.claims = s.claims
    ∧ s2.users = s.users := by
  unfold cancel_exchange at h
  cases hx : lookupA s.exchanges exid with
  | none => rw [hx] at h; exact absurd h (by simp)
  | some ex =>
    rw [hx] at h
    dsimp only at h
    by_cases h1 : (ex.buyer_id ≠ actor ∧ ex.seller_id ≠ actor)
    · rw [if_pos h1] at h; exact absurd h (by simp)
    · rw [if_neg h1] at h
      by_cases h2 : ex.status = .completed
      · rw [if_pos h2] at h; exact absurd h (by simp)
      · rw [if_neg h2] at h
        refine ⟨ex, rfl, ?_⟩
        cases hoff : lookupA s.offers ex.offer_id with
        | none =>
          rw [hoff] at h
          dsimp only at h
          injection h with h3
          subst h3
          exact ⟨rfl, rfl, rfl, rfl, rfl, rfl⟩
        | some off =>
          rw [hoff] at h
          dsimp only at h
          injection h with h3
          subst h3
          exact ⟨rfl, rfl, rfl, rfl, rfl, rfl⟩

theorem complete_exchange_ok_events (s0 s1 : SysState) (ex : Exchange)
    (exid actor : Nat) (now : Time)
    (h : (complete_exchange s0 s1 ex exid actor now).result = .ok ()) :
    (complete_exchange s0 s1 ex exid actor now).state.events =
      s1.events ++ [{ exchange_id := exid, event_type := .completed,
                      by_user_id := some actor, notes := none }] := by
  simp only [complete_exchange] at h ⊢
  cases hb : add_credits_transaction (completion_working s1 ex exid actor now)
      ex.buyer_id .exchange_payment (-ex.credits_amount) (some exid)
      (some "Pago por intercambio") now with
  | error e1 => rw [hb] at h; exact absurd h (by simp)
  | ok p =>
    rw [hb] at h
    obtain ⟨s4, e4⟩ := p
    dsimp only at h ⊢
    obtain ⟨-, -, -, -, -, -, -, hev4, -⟩ :=
      add_credits_ok_parts _ _ _ _ _ _ _ _ _ hb
    cases hb2 : add_credits_transaction s4 ex.seller_id .exchange_received
        ex.credits_amount (some exid) (some "Recibo por intercambio") now with
    | error e2 => rw [hb2] at h; exact absurd h (by simp)
    | ok p2 =>
      rw [hb2] at h
      obtain ⟨s5, e5⟩ := p2
      dsimp only
      obtain ⟨-, -, -, -, -, -, -, hev5, -⟩ :=
        add_credits_ok_parts _ _ _ _ _ _ _ _ _ hb2
      rw [grantPoints_events, grantPoints_events, hev5, hev4,
        completion_working_events]

/-- Scenario state for the completing confirm: reserved offer, in-progress
exchange with the buyer confirmed, buyer holding 100 credits. -/
def c8S : SysState :=
  { baseS with offers := [(10, offReserved)], exchanges := [(100, exBuyerConfirmed)] }

/-- Claim C8 counterexample: the confirm call that completes the exchange
appends two ExchangeEvents (its check-in event and the completed event),
not exactly one. -/
theorem transition_event_cex :
    (confirm_exchange c8S 2 100 none 9).result = .ok ()
    ∧ (lookupA (confirm_exchange c8S 2 100 none 9).state.exchanges 100).map
        (fun e => e.status) = some .completed
    ∧ (confirm_exchange c8S 2 100 none 9).state.events.length =
        c8S.events.length + 2 := by
  refine ⟨by decide, by decide, by decide⟩

/-- Claim C8 amended: each successful create, accept, cancel and
non-completing confirm appends exactly one ExchangeEvent for the affected
exchange; the confirm that completes the exchange appends exactly two — its
check-in event followed by the completed event. -/
theorem transition_event_counts (s : SysState) (actor buyer offer_id exid new_id : Nat)
    (loc : Option Nat) (sched : Option Time) (notes reason : Option String)
    (now : Time) :
    (∀ s2 i ex2, create_exchange s buyer offer_id loc sched notes new_id =
        .ok (s2, i, ex2) → ∃ ev, s2.events = s.events ++ [ev] ∧ ev.exchange_id = i)
    ∧ (∀ s2, accept_exchange s actor exid = .ok s2 →
        ∃ ev, s2.events = s.events ++ [ev] ∧ ev.exchange_id = exid)
    ∧ (∀ s2, cancel_exchange s actor exid reason = .ok s2 →
        ∃ ev, s2.events = s.events ++ [ev] ∧ ev.exchange_id = exid)
    ∧ ∀ ex, lookupA s.exchanges exid = some ex →
        (confirm_exchange s actor exid notes now).result = .ok () →
        (¬((confirmedExchange ex actor now).buyer_confirmed = true
            ∧ (confirmedExchange ex actor now).seller_confirmed = true) →
          (confirm_exchange s actor exid notes now).state.events =
            s.events ++ [checkInEvent ex exid actor notes])
        ∧ (((confirmedExchange ex actor now).buyer_confirmed = true
            ∧ (confirmedExchange ex actor now).seller_confirmed = true) →
          (confirm_exchange s actor exid notes now).state.events =
            s.events ++ [checkInEvent ex exid actor notes,
              { exchange_id := exid, event_type := .completed,
                by_user_id := some actor, notes := none }]) := by
  refine ⟨?_, ?_, ?_, ?_⟩
  · intro s2 i ex2 h
    obtain ⟨hi, hev, -⟩ := create_exchange_ok_parts _ _ _ _ _ _ _ _ _ _ h
    subst hi
    exact ⟨_, hev, rfl⟩
  · intro s2 h
    obtain ⟨ex, -, hev, -⟩ := accept_exchange_ok_parts _ _ _ _ h
    exact ⟨_, hev, rfl⟩
  · intro s2 h
    obtain ⟨ex, -, hev, -⟩ := cancel_exchange_ok_parts _ _ _ _ _ h
    exact ⟨_, hev, rfl⟩
  · intro ex hex hr
    simp only [confirm_exchange, hex] at hr ⊢
    by_cases h1 : (ex.buyer_id ≠ actor ∧ ex.seller_id ≠ actor)
    · rw [if_pos h1] at hr
      exact absurd hr (by simp)
    · rw [if_neg h1] at hr ⊢
      by_cases h2 : (ex.status ≠ .accepted ∧ ex.status ≠ .in_progress)
      · rw [if_pos h2] at hr
        exact absurd hr (by simp)
      · rw [if_neg h2] at hr ⊢
        by_cases h3 : (ex.buyer_id = actor ∧ ex.buyer_confirmed = true)
        · rw [if_pos h3] at hr
          exact absurd hr (by simp)
        · rw [if_neg h3] at hr ⊢
          by_cases h4 : (¬(ex.buyer_id = actor) ∧ ex.seller_confirmed = true)
          · rw [if_pos h4] at hr
            exact absurd hr (by simp)
          · rw [if_neg h4] at hr ⊢
            by_cases h5 : ((confirmedExchange ex actor now).buyer_confirmed = true
                ∧ (confirmedExchange ex actor now).seller_confirmed = true)
            · rw [if_pos h5] at hr ⊢
              refine ⟨fun hc => absurd h5 hc, fun _ => ?_⟩
              rw [complete_exchange_ok_events _ _ _ _ _ _ hr]
              rw [show ({ s with
                  exchanges := setA s.exchanges exid (confirmedExchange ex actor now),
                  events := s.events ++ [checkInEvent ex exid actor notes] } :
                  SysState).events = s.events ++ [checkInEvent ex exid actor notes]
                from rfl]
              rw [List.append_assoc]
              rfl
            · rw [if_neg h5] at hr ⊢
              exact ⟨fun _ => rfl, fun hc => absurd hc h5⟩

/-- Witness for the amended C8: the completing confirm of the Scenario A
state appends the check-in and completed events. -/
theorem transition_event_counts_witness :
    (confirm_exchange c8S 2 100 none 9).state.events =
      c8S.events ++ [checkInEvent exBuyerConfirmed 100 2 none,
        { exchange_id := 100, event_type := .completed,
          by_user_id := some 2, notes := none }] :=
  ((transition_event_counts c8S 2 1 10 100 101 none none none none 9).2.2.2
      exBuyerConfirmed (by decide) (by decide)).2 ⟨by decide, by decide⟩

/-! ### The ledger invariant and its preservation -/

/-- The §8 testable ledger property: the balance of every user equals the sum of
their signed amounts and is never negative. -/
def LedgerOk (l : List LedgerEntry) : Prop :=
  ∀ uid, get_user_balance l uid = sumAmounts l uid ∧ 0 ≤ get_user_balance l uid

/-- Every stored exchange has distinct buyer and seller (guaranteed by the
own-offer guard of create_exchange). -/
def ExOk (l : List (Nat × Exchange)) : Prop :=
  ∀ p ∈ l, (p.2 : Exchange).buyer_id ≠ p.2.seller_id

theorem ledgerOk_nil : LedgerOk [] :=
  fun _ => ⟨rfl, le_refl 0⟩

theorem exOk_nil : ExOk [] := by
  intro p hp
  cases hp

theorem exOk_setA (l : List (Nat × Exchange)) (k : Nat) (v : Exchange)
    (hE : ExOk l) (hv : v.buyer_id ≠ v.seller_id) : ExOk (setA l k v) := by
  intro p hp
  rcases setA_mem hp with h | h
  · rw [h]
    exact hv
  · exact hE p h

theorem ledgerOk_append (l : List LedgerEntry) (e : LedgerEntry)
    (hIH : LedgerOk l)
    (hba : e.balance_after = get_user_balance l e.user_id + e.amount)
    (hpos : 0 ≤ e.balance_after)
    (htimes : ∀ a ∈ userEntries l e.user_id, a.created_at < e.created_at) :
    LedgerOk (l ++ [e]) := by
  intro uid
  by_cases hu : e.user_id = uid
  · subst hu
    constructor
    · rw [get_user_balance_append_self _ _ _ rfl htimes,
        sumAmounts_append_self _ _ _ rfl, hba, (hIH e.user_id).1]
    · rw [get_user_balance_append_self _ _ _ rfl htimes]
      exact hpos
  · constructor
    · rw [get_user_balance_append_other _ _ _ hu, sumAmounts_append_other _ _ _ hu]
      exact (hIH uid).1
    · rw [get_user_balance_append_other _ _ _ hu]
      exact (hIH uid).2

theorem claim_reward_ok_parts (s : SysState) (uid rid : Nat) (now : Time)
    (s2 : SysState) (cid : Nat) (c : RewardClaim)
    (h : claim_reward s uid rid now = .ok (s2, cid, c)) :
    ∃ rw0, lookupA s.rewards rid = some rw0
    ∧ ¬(get_user_balance s.ledger uid < rw0.credits_cost)
    ∧ (∃ e, s2.ledger = s.ledger ++ [e] ∧ e.user_id = uid
        ∧ e.amount = -rw0.credits_cost
        ∧ e.balance_after = get_user_balance s.ledger uid - rw0.credits_cost
        ∧ e.created_at = now)
    ∧ s2.exchanges = s.exchanges := by
  unfold claim_reward at h
  cases hr : lookupA s.rewards rid with
  | none => rw [hr] at h; exact absurd h (by simp)
  | some rw0 =>
    rw [hr] at h
    dsimp only at h
    by_cases h1 : (!rw0.is_active) = true
    · rw [if_pos h1] at h; exact absurd h (by simp)
    · rw [if_neg h1] at h
      by_cases h2 : rw0.stock_quantity ≤ 0
      · rw [if_pos h2] at h; exact absurd h (by simp)
      · rw [if_neg h2] at h
        cases hu : lookupA s.users uid with
        | none => rw [hu] at h; exact absurd h (by simp)
        | some u =>
          rw [hu] at h
          dsimp only at h
          by_cases h3 : get_user_balance s.ledger uid < rw0.credits_cost
          · rw [if_pos h3] at h; exact absurd h (by simp)
          · rw [if_neg h3] at h
            injection h with h4
            injection h4 with hs2 h5
            subst hs2
            exact ⟨rw0, rfl, h3, ⟨_, rfl, rfl, rfl, rfl, rfl⟩, rfl⟩

theorem update_claim_status_parts (s : SysState) (cid : Nat) (st : ClaimStatus)
    (notes : Option String) (now : Time) (s2 : SysState) (c : RewardClaim)
    (h : update_claim_status s cid st notes now = some (s2, c)) :
    s2.ledger = s.ledger ∧ s2.exchanges = s.exchanges := by
  unfold update_claim_status at h
  cases hc : lookupA s.claims cid with
  | none => rw [hc] at h; exact absurd h (by simp)
  | some c0 =>
    rw [hc] at h
    dsimp only at h
    injection h with h2
    injection h2 with hs2 h3
    subst hs2
    exact ⟨rfl, rfl⟩

theorem add_credits_inv (s : SysState) (uid : Nat) (ttype : TxType)
    (amount : Int) (ref : Option Nat) (descr : Option String) (now : Time)
    (s2 : SysState) (e : LedgerEntry)
    (hnow : ∀ a ∈ s.ledger, a.created_at < now)
    (hL : LedgerOk s.ledger) (hE : ExOk s.exchanges)
    (h : add_credits_transaction s uid ttype amount ref descr now = .ok (s2, e)) :
    LedgerOk s2.ledger ∧ ExOk s2.exchanges := by
  obtain ⟨hl, hu, ham, hct, hba, -, hexch, -⟩ := add_credits_ok_parts _ _ _ _ _ _ _ _ _ h
  have hpos : 0 ≤ e.balance_after := by
    by_cases hneg : get_user_balance s.ledger uid + amount < 0
    · rw [add_credits_error_eq _ _ _ _ _ _ _ hneg] at h
      exact absurd h (by simp)
    · rw [hba]; omega
  constructor
  · rw [hl]
    apply ledgerOk_append _ _ hL
    · rw [hu, ham]; exact hba
    · exact hpos
    · intro a ha
      rw [hct]
      exact hnow a (List.mem_of_mem_filter ha)
  · rw [hexch]; exact hE

theorem claim_reward_inv (s : SysState) (uid rid : Nat) (now : Time)
    (s2 : SysState) (cid : Nat) (c : RewardClaim)
    (hnow : ∀ a ∈ s.ledger, a.created_at < now)
    (hL : LedgerOk s.ledger) (hE : ExOk s.exchanges)
    (h : claim_reward s uid rid now = .ok (s2, cid, c)) :
    LedgerOk s2.ledger ∧ ExOk s2.exchanges := by
  obtain ⟨rw0, hr, hbal, ⟨e, hl, hu, ham, hba, hct⟩, hexch⟩ :=
    claim_reward_ok_parts _ _ _ _ _ _ _ h
  constructor
  · rw [hl]
    apply ledgerOk_append _ _ hL
    · rw [hu, ham, hba]; omega
    · rw [hba]; omega
    · intro a ha
      rw [hct]
      exact hnow a (List.mem_of_mem_filter ha)
  · rw [hexch]; exact hE

theorem complete_exchange_inv (s0 s1 : SysState) (ex : Exchange)
    (exid actor : Nat) (now : Time)
    (hled : s1.ledger = s0.ledger)
    (hnow : ∀ a ∈ s0.ledger, a.created_at < now)
    (hne : ex.buyer_id ≠ ex.seller_id)
    (hL : LedgerOk s0.ledger) (hE0 : ExOk s0.exchanges)
    (hE1 : ExOk s1.exchanges) :
    LedgerOk (complete_exchange s0 s1 ex exid actor now).state.ledger
    ∧ ExOk (complete_exchange s0 s1 ex exid actor now).state.exchanges := by
  simp only [complete_exchange]
  have hwl : (completion_working s1 ex exid actor now).ledger = s0.ledger := by
    rw [completion_working_ledger, hled]
  cases hb : add_credits_transaction (completion_working s1 ex exid actor now)
      ex.buyer_id .exchange_payment (-ex.credits_amount) (some exid)
      (some "Pago por intercambio") now with
  | error e1 => exact ⟨hL, hE0⟩
  | ok p =>
    obtain ⟨s4, e4⟩ := p
    dsimp only
    obtain ⟨hl4, hu4, ham4, hct4, hba4, -, hexch4, -⟩ :=
      add_credits_ok_parts _ _ _ _ _ _ _ _ _ hb
    have hpos4 : 0 ≤ e4.balance_after := by
      by_cases hneg : get_user_balance (completion_working s1 ex exid actor now).ledger
          ex.buyer_id + -ex.credits_amount < 0
      · rw [add_credits_error_eq _ _ _ _ _ _ _ hneg] at hb
        exact absurd hb (by simp)
      · rw [hba4]; omega
    have hL4 : LedgerOk s4.ledger := by
      rw [hl4, hwl]
      apply ledgerOk_append _ _ hL
      · rw [hu4, ham4, ← hwl]; exact hba4
      · exact hpos4
      · intro a ha
        rw [hct4]
        exact hnow a (List.mem_of_mem_filter ha)
    have hE4 : ExOk s4.exchanges := by
      rw [hexch4, completion_working_exchanges]
      exact exOk_setA _ _ _ hE1 hne
    cases hb2 : add_credits_transaction s4 ex.seller_id .exchange_received
        ex.credits_amount (some exid) (some "Recibo por intercambio") now with
    | error e2 => exact ⟨hL4, hE4⟩
    | ok p2 =>
      obtain ⟨s5, e5⟩ := p2
      dsimp only
      obtain ⟨hl5, hu5, ham5, hct5, hba5, -, hexch5, -⟩ :=
        add_credits_ok_parts _ _ _ _ _ _ _ _ _ hb2
      have hpos5 : 0 ≤ e5.balance_after := by
        by_cases hneg : get_user_balance s4.ledger ex.seller_id
            + ex.credits_amount < 0
        · rw [add_credits_error_eq _ _ _ _ _ _ _ hneg] at hb2
          exact absurd hb2 (by simp)
        · rw [hba5]; omega
      have huser5 : userEntries s4.ledger ex.seller_id =
          userEntries s0.ledger ex.seller_id := by
        rw [hl4, hwl, userEntries_append, if_neg (by rw [hu4]; exact hne),
          List.append_nil]
      have hL5 : LedgerOk s5.ledger := by
        rw [hl5]
        apply ledgerOk_append _ _ hL4
        · rw [hu5, ham5]; exact hba5
        · exact hpos5
        · intro a ha
          rw [hct5]
          rw [hu5, huser5] at ha
          exact hnow a (List.mem_of_mem_filter ha)
      constructor
      · rw [grantPoints_ledger, grantPoints_ledger]; exact hL5
      · rw [grantPoints_exchanges, grantPoints_exchanges, hexch5]; exact hE4

theorem confirm_inv (s : SysState) (actor exid : Nat) (notes : Option String)
    (now : Time) (hnow : ∀ a ∈ s.ledger, a.created_at < now)
    (hL : LedgerOk s.ledger) (hE : ExOk s.exchanges) :
    LedgerOk (confirm_exchange s actor exid notes now).state.ledger
    ∧ ExOk (confirm_exchange s actor exid notes now).state.exchanges := by
  simp only [confirm_exchange]
  cases hx : lookupA s.exchanges exid with
  | none => exact ⟨hL, hE⟩
  | some ex =>
    dsimp only
    have hne : ex.buyer_id ≠ ex.seller_id := hE (exid, ex) (lookupA_mem hx)
    by_cases h1 : (ex.buyer_id ≠ actor ∧ ex.seller_id ≠ actor)
    · rw [if_pos h1]; exact ⟨hL, hE⟩
    · rw [if_neg h1]
      by_cases h2 : (ex.status ≠ .accepted ∧ ex.status ≠ .in_progress)
      · rw [if_pos h2]; exact ⟨hL, hE⟩
      · rw [if_neg h2]
        by_cases h3 : (ex.buyer_id = actor ∧ ex.buyer_confirmed = true)
        · rw [if_pos h3]; exact ⟨hL, hE⟩
        · rw [if_neg h3]
          by_cases h4 : (¬(ex.buyer_id = actor) ∧ ex.seller_confirmed = true)
          · rw [if_pos h4]; exact ⟨hL, hE⟩
          · rw [if_neg h4]
            have hne2 : (confirmedExchange ex actor now).buyer_id ≠
                (confirmedExchange ex actor now).seller_id := by
              rw [confirmedExchange_buyer_id, confirmedExchange_seller_id]
              exact hne
            have hE1 : ExOk (setA s.exchanges exid (confirmedExchange ex actor now)) :=
              exOk_setA _ _ _ hE hne2
            by_cases h5 : ((confirmedExchange ex actor now).buyer_confirmed = true
                ∧ (confirmedExchange ex actor now).seller_confirmed = true)
            · rw [if_pos h5]
              exact complete_exchange_inv s
                { s with
                    exchanges := setA s.exchanges exid (confirmedExchange ex actor now),
                    events := s.events ++ [checkInEvent ex exid actor notes] }
                (confirmedExchange ex actor now) exid actor now rfl hnow hne2 hL hE hE1
            · rw [if_neg h5]
              exact ⟨hL, hE1⟩

/-- States reachable by this core: starting from a database whose credits
ledger and exchanges table are empty (offers, rewards and users may
pre-exist), closed under every embedded operation.  Each ledger-writing
step carries the sequential-execution fact that its wall-clock time is
later than the created_at of every existing ledger entry. -/
inductive Reachable : SysState → Prop where
  | init (s : SysState) (hl : s.ledger = []) (hex : s.exchanges = []) :
      Reachable s
  | step_add (s : SysState) (uid : Nat) (ttype : TxType) (amount : Int)
      (ref : Option Nat) (descr : Option String) (now : Time)
      (s2 : SysState) (e : LedgerEntry) (hs : Reachable s)
      (hnow : ∀ a ∈ s.ledger, a.created_at < now)
      (h : add_credits_transaction s uid ttype amount ref descr now = .ok (s2, e)) :
      Reachable s2
  | step_claim (s : SysState) (uid rid : Nat) (now : Time) (s2 : SysState)
      (cid : Nat) (c : RewardClaim) (hs : Reachable s)
      (hnow : ∀ a ∈ s.ledger, a.created_at < now)
      (h : claim_reward s uid rid now = .ok (s2, cid, c)) : Reachable s2
  | step_update (s : SysState) (cid : Nat) (st : ClaimStatus)
      (notes : Option String) (now : Time) (s2 : SysState) (c : RewardClaim)
      (hs : Reachable s)
      (h : update_claim_status s cid st notes now = some (s2, c)) : Reachable s2
  | step_create (s : SysState) (buyer offer_id : Nat) (loc : Option Nat)
      (sched : Option Time) (notes : Option String) (new_id : Nat)
      (s2 : SysState) (i : Nat) (ex2 : Exchange) (hs : Reachable s)
      (h : create_exchange s buyer offer_id loc sched notes new_id =
             .ok (s2, i, ex2)) : Reachable s2
  | step_accept (s : SysState) (actor exid : Nat) (s2 : SysState)
      (hs : Reachable s) (h : accept_exchange s actor exid = .ok s2) :
      Reachable s2
  | step_confirm (s : SysState) (actor exid : Nat) (notes : Option String)
      (now : Time) (hs : Reachable s)
      (hnow : ∀ a ∈ s.ledger, a.created_at < now) :
      Reachable (confirm_exchange s actor exid notes now).state
  | step_cancel (s : SysState) (actor exid : Nat) (reason : Option String)
      (s2 : SysState) (hs : Reachable s)
      (h : cancel_exchange s actor exid reason = .ok s2) : Reachable s2

theorem reachable_inv (s : SysState) (h : Reachable s) :
    LedgerOk s.ledger ∧ ExOk s.exchanges := by
  induction h with
  | init s hl hex =>
    rw [hl, hex]
    exact ⟨ledgerOk_nil, exOk_nil⟩
  | step_add s uid ttype amount ref descr now s2 e hs hnow h ih =>
    exact add_credits_inv s uid ttype amount ref descr now s2 e hnow ih.1 ih.2 h
  | step_claim s uid rid now s2 cid c hs hnow h ih =>
    exact claim_reward_inv s uid rid now s2 cid c hnow ih.1 ih.2 h
  | step_update s cid st notes now s2 c hs h ih =>
    obtain ⟨hl, hexch⟩ := update_claim_status_parts s cid st notes now s2 c h
    rw [hl, hexch]
    exact ih
  | step_create s buyer offer_id loc sched notes new_id s2 i ex2 hs h ih =>
    obtain ⟨-, -, hexch, hl, -, -, -, hb, hsel, -⟩ :=
      create_exchange_ok_parts s buyer offer_id loc sched notes new_id s2 i ex2 h
    constructor
    · rw [hl]; exact ih.1
    · rw [hexch]
      intro p hp
      rcases List.mem_append.mp hp with hp1 | hp1
      · exact ih.2 p hp1
      · have hpv : p = (new_id, ex2) := by simpa using hp1
        rw [hpv]
        show ex2.buyer_id ≠ ex2.seller_id
        rw [hb]
        exact Ne.symm hsel
  | step_accept s actor exid s2 hs h ih =>
    obtain ⟨ex, hx, hev, hexch, hl, -⟩ := accept_exchange_ok_parts s actor exid s2 h
    constructor
    · rw [hl]; exact ih.1
    · rw [hexch]
      exact exOk_setA _ _ _ ih.2 (ih.2 (exid, ex) (lookupA_mem hx))
  | step_confirm s actor exid notes now hs hnow ih =>
    exact confirm_inv s actor exid notes now hnow ih.1 ih.2
  | step_cancel s actor exid reason s2 hs h ih =>
    obtain ⟨ex, hx, hev, hexch, hl, -⟩ := cancel_exchange_ok_parts s actor exid reason s2 h
    constructor
    · rw [hl]; exact ih.1
    · rw [hexch]
      exact exOk_setA _ _ _ ih.2 (ih.2 (exid, ex) (lookupA_mem hx))

/-- Claim C2: in every reachable state, the balance of every user — the
balance_after of their latest ledger entry, or 0 with no entries — equals
the sum of all their LedgerEntry amounts and is never negative; each
ledger-appending operation (exchange completion, reward claim, generic
credit transaction) preserves this, as does every other embedded operation. -/
theorem ledger_balance_inv (s : SysState) (h : Reachable s) (uid : Nat) :
    get_user_balance s.ledger uid = sumAmounts s.ledger uid
    ∧ 0 ≤ get_user_balance s.ledger uid :=
  (reachable_inv s h).1 uid

/-- The base fixture before its opening grant: empty ledger, no exchanges. -/
def preBaseS : SysState := { baseS with ledger := [] }

/-- Witness for C2 at a concrete reachable state: the base state reached by
granting 100 credits to user 1 from an empty ledger. -/
theorem ledger_balance_inv_witness :
    get_user_balance baseS.ledger 1 = sumAmounts baseS.ledger 1
    ∧ 0 ≤ get_user_balance baseS.ledger 1 :=
  ledger_balance_inv baseS
    (Reachable.step_add preBaseS 1 .initial_grant 100 none none 1 baseS entry0
      (Reachable.init preBaseS rfl rfl) (by simp [preBaseS, baseS]) (by decide))
    1

end ReuseApi
